import Mathlib

/-!
Verification of the SRAApp repository (ingestion pipeline, record-to-graph
mapper and postprocessing passes) against its natural-language specification.

Python strings are modelled as `List Char`; Python exceptions as an explicit
`Except PyErr` result; the current year `datetime.date.today().year` as an
explicit `now : Nat` argument.
-/

set_option maxRecDepth 8000

/-- Kinds of Python exceptions relevant to the modelled code paths. -/
inductive PyErr where
  | valueError
  | typeError
  | keyError
  deriving DecidableEq

/-- ASCII decimal digit test (`0`-`9`). -/
def isAsciiDigit (c : Char) : Bool := decide ('0' ≤ c) && decide (c ≤ '9')

/-- Numeric value of an ASCII digit character. -/
def digitVal (c : Char) : Nat := c.toNat - '0'.toNat

/-- Whitespace stripped by Python `int(...)` (ASCII fragment). -/
def isPyWhite (c : Char) : Bool := c = ' ' || c = '\t' || c = '\n' || c = '\r'

/-- Continue parsing a decimal digit run; a single underscore may separate
two digits (Python numeric-string rule). -/
def pyIntGo (acc : Nat) : List Char → Option Nat
  | [] => some acc
  | c :: cs =>
      if c = '_' then
        match cs with
        | [] => none
        | d :: ds => if isAsciiDigit d then pyIntGo (acc * 10 + digitVal d) ds else none
      else if isAsciiDigit c then pyIntGo (acc * 10 + digitVal c) cs else none

/-- Parse a non-empty decimal digit run (with embedded single underscores). -/
def pyDigitRun? : List Char → Option Nat
  | [] => none
  | c :: cs => if isAsciiDigit c then pyIntGo (digitVal c) cs else none

/-- Model of Python `int(s)` for a string argument: optional surrounding
whitespace, optional single sign, decimal digits; `none` models the
`ValueError` raised on any other shape. -/
def pyInt? (cs : List Char) : Option Int :=
  let cs := (List.dropWhile isPyWhite ((List.dropWhile isPyWhite cs.reverse).reverse))
  match cs with
  | '-' :: rest => (pyDigitRun? rest).map (fun n => -(n : Int))
  | '+' :: rest => (pyDigitRun? rest).map (fun n => (n : Int))
  | rest => (pyDigitRun? rest).map (fun n => (n : Int))

/-- The ASCII digit character of a value below ten. -/
def natDigitChar (n : Nat) : Char := Char.ofNat (48 + n)

/-- Fuelled decimal rendering of a natural number (most significant digit
first); the fuel only bounds the number of digits, so `n + 1` always
suffices. -/
def natStrF : Nat → Nat → List Char
  | 0, _ => []
  | fuel + 1, n =>
      if n < 10 then [natDigitChar n]
      else natStrF fuel (n / 10) ++ [natDigitChar (n % 10)]

/-- Decimal rendering of a natural number. -/
def natStr (n : Nat) : List Char := natStrF (n + 1) n

/-- Model of Python `str(i)` for an int (decimal, `-` sign for negatives). -/
def pyStrInt : Int → List Char
  | .ofNat n => natStr n
  | .negSucc n => '-' :: natStr (n + 1)

/-- Model of Python `str.isdigit` (ASCII fragment): non-empty and all digits. -/
def pyIsDigit (cs : List Char) : Bool := !cs.isEmpty && cs.all isAsciiDigit

/-- Model of Python `str.split(delim)` for a one-character delimiter. -/
def splitOnChar (delim : Char) : List Char → List (List Char)
  | [] => [[]]
  | c :: rest =>
      let r := splitOnChar delim rest
      if c = delim then [] :: r
      else
        match r with
        | [] => [[c]]
        | h :: t => (c :: h) :: t

/-- Number of occurrences of a character in a string. -/
def countChar (c : Char) (s : List Char) : Nat := s.count c

/-- Embedding of `CleanDate.fix_year` (src/database/helper_functions.py,
lines 117-143), with `now` standing for `datetime.date.today().year`.
The argument is a string in every call site of this code base; `int(year)`
is applied first. Branching is on `len(str(year))`, the length of the
canonical decimal form. In the two-digit branch the source executes
`if year <= now_short` where `year` is an `int` and `now_short = str(now)[2:]`
is a `str`: in Python 3 this comparison raises `TypeError`, so the branch
never returns a value. -/
def fix_year (now : Nat) (year : List Char) : Except PyErr Int :=
  match pyInt? year with
  | none => .error .valueError
  | some y =>
      let s := pyStrInt y
      if s.length = 4 then
        if y > (now : Int) then .error .valueError
        else if y < 1900 then .error .valueError
        else .ok y
      else if s.length = 2 then
        .error .typeError
      else if s.length = 1 then
        match pyInt? ('2' :: '0' :: '0' :: s) with
        | some v => .ok v
        | none => .error .valueError
      else .error .valueError

/-- The `month_lookup` dictionary of `CleanDate.__init__` (lines 109-115). -/
def month_lookup : List (List Char × Int) :=
  [("jan".toList, 1), ("feb".toList, 2), ("mar".toList, 3), ("apr".toList, 4),
   ("may".toList, 5), ("june".toList, 6), ("july".toList, 7), ("aug".toList, 8),
   ("sept".toList, 9), ("oct".toList, 10), ("nov".toList, 11), ("dec".toList, 12),
   ("january".toList, 1), ("february".toList, 2), ("march".toList, 3),
   ("april".toList, 4), ("august".toList, 8), ("september".toList, 9),
   ("october".toList, 10), ("november".toList, 11), ("december".toList, 12),
   ("sep".toList, 9), ("jun".toList, 6), ("jul".toList, 7)]

/-- Test for the regex `[^.]*\.$` of `fix_month`: a single `.` standing as
the final character. -/
def endsWithLoneDot (s : List Char) : Bool :=
  countChar '.' s = 1 && s.getLast? = some '.'

/-- Embedding of `CleanDate.fix_month` (lines 145-163). A digit string is
converted with `int`; otherwise a trailing lone period is stripped and the
(lowercased) name is looked up in `month_lookup`; the result must lie in
`[1, 12]`. -/
def fix_month (month : List Char) : Except PyErr Int :=
  let m? : Except PyErr Int :=
    if pyIsDigit month then
      match pyInt? month with
      | some v => .ok v
      | none => .error .valueError
    else
      let m := if endsWithLoneDot month then month.takeWhile (fun c => c ≠ '.') else month
      match month_lookup.lookup (m.map Char.toLower) with
      | some v => .ok v
      | none => .error .valueError
  match m? with
  | .error e => .error e
  | .ok m => if m > 12 || m < 1 then .error .valueError else .ok m

/-- Embedding of `CleanDate.fix_day` (lines 165-174): `int(day)`, then the
result must lie in `[1, 31]`. -/
def fix_day (day : List Char) : Except PyErr Int :=
  match pyInt? day with
  | none => .error .valueError
  | some d => if d > 31 || d < 1 then .error .valueError else .ok d

/-- Embedding of `CleanDate._get_date_m_y` (lines 176-186): split on the
delimiter into exactly two fields, try `(month, year)` then `(year, month)`,
day fixed to 1. Any exception in an ordering (including the `TypeError` out
of `fix_year`) makes the source fall to the next ordering via a bare
`except`. -/
def get_date_m_y (now : Nat) (date : List Char) (delim : Char) :
    Except PyErr (Int × Int × Int) :=
  match splitOnChar delim date with
  | [m, y] =>
      match fix_month m, fix_year now y with
      | .ok mo, .ok yr => .ok (1, mo, yr)
      | _, _ =>
        match fix_month y, fix_year now m with
        | .ok mo, .ok yr => .ok (1, mo, yr)
        | _, _ => .error .valueError
  | _ => .error .valueError

/-- Embedding of `CleanDate._get_date_d_m_y` (lines 188-204): split on the
delimiter into exactly three fields and try the orderings `(d, m, y)`,
`(m, d, y)`, `(y, m, d)` in turn, each guarded by a bare `except`. -/
def get_date_d_m_y (now : Nat) (date : List Char) (delim : Char) :
    Except PyErr (Int × Int × Int) :=
  match splitOnChar delim date with
  | [d, m, y] =>
      match fix_day d, fix_month m, fix_year now y with
      | .ok dd, .ok mm, .ok yy => .ok (dd, mm, yy)
      | _, _, _ =>
        match fix_day m, fix_month d, fix_year now y with
        | .ok dd, .ok mm, .ok yy => .ok (dd, mm, yy)
        | _, _, _ =>
          match fix_day y, fix_month m, fix_year now d with
          | .ok dd, .ok mm, .ok yy => .ok (dd, mm, yy)
          | _, _, _ => .error .valueError
  | _ => .error .valueError

/-- Character class `[0..9]` as written in the first two regexes of
`fix_date`: inside `[...]` the two dots are literal, so the class holds
exactly the characters `0`, `.` and `9`. -/
def class09 (c : Char) : Bool := c = '0' || c = '.' || c = '9'

/-- Test for `^[^:]* {1}[0..9]{2}:{1}[0..9]{2}[^:]*$` (fix_date line 222).
A matching string holds exactly one `:`; the part before it ends in a space
followed by two class characters, the part after it starts with two class
characters. -/
def reTimeSuffix (s : List Char) : Bool :=
  countChar ':' s = 1 &&
  match splitOnChar ':' s with
  | [p0, p1] =>
      (match p0.reverse with
       | b :: a :: sp :: _ => class09 b && class09 a && sp = ' '
       | _ => false) &&
      (match p1 with
       | c :: d :: _ => class09 c && class09 d
       | _ => false)
  | _ => false

/-- Test for `^[0..9]{2}:{1}[0..9]{2} {1}[^:]*$` (fix_date line 227). -/
def reTimeFirst (s : List Char) : Bool :=
  countChar ':' s = 1 &&
  match splitOnChar ':' s with
  | [p0, p1] =>
      (match p0 with
       | [a, b] => class09 a && class09 b
       | _ => false) &&
      (match p1 with
       | c :: d :: sp :: _ => class09 c && class09 d && sp = ' '
       | _ => false)
  | _ => false

/-- A string position starting with a ` HH:MM:SS` block of real digits. -/
def isTimeAt : List Char → Bool
  | ' ' :: a :: b :: ':' :: c :: d :: ':' :: e :: f :: _ =>
      [a, b, c, d, e, f].all isAsciiDigit
  | _ => false

/-- Test for `^.* {1}\d{2}:\d{2}:\d{2}.*$` (fix_date line 232): the string
holds a space-prefixed `HH:MM:SS` block somewhere. -/
def reDatetimeSuffix (s : List Char) : Bool := s.tails.any isTimeAt

/-- Test for `^\d{2}:\d{2}:\d{2} {1}.*$` (fix_date line 237): the string
starts with an `HH:MM:SS` block followed by a space. -/
def reDatetimeFirst (s : List Char) : Bool :=
  match s with
  | a :: b :: ':' :: c :: d :: ':' :: e :: f :: ' ' :: _ =>
      [a, b, c, d, e, f].all isAsciiDigit
  | _ => false

/-- Test for `^[^.]*\.{1}[^.]*.{1}[^.]*$` (fix_date line 264): the second
dot of the intended pattern is an unescaped `.` wildcard, so the regex
matches exactly the strings having either one `.` with at least one later
character, or exactly two `.`. -/
def reTwoDotsLoose (s : List Char) : Bool :=
  (countChar '.' s = 1 && s.getLast? ≠ some '.') || countChar '.' s = 2

/-- Python `'{:02d}'.format(i)`: pad the decimal form to two characters. -/
def pad2 (i : Int) : List Char :=
  let s := pyStrInt i
  if s.length < 2 then '0' :: s else s

/-- The format expression `f'{year}-{month:02d}-{day:02d}'` closing
`fix_date`; the argument is the `(day, month, year)` triple produced by the
`_get_date_*` helpers. -/
def fmtDate : Int × Int × Int → List Char
  | (d, m, y) => pyStrInt y ++ ('-' :: pad2 m) ++ ('-' :: pad2 d)

/-- Fuelled body of `CleanDate.fix_date` (lines 219-274). Every recursive
call of the source is on a strictly shorter string, so fuel
`date.length + 1` (as supplied by `fix_date` below) can never run out; the
fuel-0 case is unreachable. The branch structure follows the source's
`if/elif` regex chain in order. In the two `HH:MM:SS` branches the source
unpacks `date.split(':')` into three names, raising `ValueError` when the
surrounding `.*` of the regex carries further colons. -/
def fixDateF (now : Nat) : Nat → List Char → Except PyErr (List Char)
  | 0, _ => .error .valueError
  | fuel + 1, date =>
    if reTimeSuffix date then
      match splitOnChar ':' date with
      | [f, _t] => fixDateF now fuel (f.take (f.length - 3))
      | _ => .error .valueError
    else if reTimeFirst date then
      match splitOnChar ':' date with
      | [_f, t] => fixDateF now fuel (t.drop 3)
      | _ => .error .valueError
    else if reDatetimeSuffix date then
      match splitOnChar ':' date with
      | [f, _m, _t] => fixDateF now fuel (f.take (f.length - 3))
      | _ => .error .valueError
    else if reDatetimeFirst date then
      match splitOnChar ':' date with
      | [_f, _m, t] => fixDateF now fuel (t.drop 3)
      | _ => .error .valueError
    else if countChar '/' date = 1 then
      match splitOnChar '/' date with
      | [f, t] =>
          if f.length = t.length then fixDateF now fuel t
          else (get_date_m_y now date '/').map fmtDate
      | _ => .error .valueError
    else if countChar '/' date = 2 then (get_date_d_m_y now date '/').map fmtDate
    else if countChar '-' date = 1 then (get_date_m_y now date '-').map fmtDate
    else if countChar '-' date = 2 then (get_date_d_m_y now date '-').map fmtDate
    else if countChar '.' date = 1 then (get_date_m_y now date '.').map fmtDate
    else if reTwoDotsLoose date then (get_date_d_m_y now date '.').map fmtDate
    else if pyIsDigit date then
      (fix_year now date).map (fun y => fmtDate (1, 1, y))
    else .ok "unknown".toList

/-- Embedding of `CleanDate.fix_date`: the fuelled body at sufficient fuel. -/
def fix_date (now : Nat) (date : List Char) : Except PyErr (List Char) :=
  fixDateF now (date.length + 1) date

/-- Embedding of `CleanDate.safe_fix_date` (lines 207-216): any exception
from `fix_date` is caught and the sentinel `'unknown'` is returned. -/
def safe_fix_date (now : Nat) (date : List Char) : List Char :=
  match fix_date now date with
  | .ok d => d
  | .error _ => "unknown".toList

/-- `fix_year` on the token `2021` succeeds once the current year is at
least 2021: the decimal form has four characters and `1900 ≤ 2021`. -/
theorem fix_year_token_2021 (now : Nat) (h : 2021 ≤ now) :
    fix_year now ("2021".toList) = .ok 2021 := by
  unfold fix_year
  rw [show pyInt? ("2021".toList) = some 2021 from rfl]
  simp only []
  rw [show pyStrInt 2021 = "2021".toList from rfl]
  norm_num
  exact fun hc => absurd hc (by omega)

/-- `_get_date_d_m_y` on `15/03/2021` resolves through its first ordering
once the current year is at least 2021. -/
theorem get_date_d_m_y_ex (now : Nat) (h : 2021 ≤ now) :
    get_date_d_m_y now ("15/03/2021".toList) '/' = .ok (15, 3, 2021) := by
  unfold get_date_d_m_y
  rw [show splitOnChar '/' ("15/03/2021".toList)
        = ["15".toList, "03".toList, "2021".toList] from rfl]
  simp only []
  rw [show fix_day ("15".toList) = .ok 15 from rfl,
      show fix_month ("03".toList) = .ok 3 from rfl,
      fix_year_token_2021 now h]

/-- `_get_date_m_y` on `03/2021` resolves through its first ordering once
the current year is at least 2021. -/
theorem get_date_m_y_ex (now : Nat) (h : 2021 ≤ now) :
    get_date_m_y now ("03/2021".toList) '/' = .ok (1, 3, 2021) := by
  unfold get_date_m_y
  rw [show splitOnChar '/' ("03/2021".toList)
        = ["03".toList, "2021".toList] from rfl]
  simp only []
  rw [show fix_month ("03".toList) = .ok 3 from rfl,
      fix_year_token_2021 now h]

/-- C1: for every year token handled by `CleanDate.fix_year` with current
year 2026: a 4-digit year is accepted exactly on `[1900, 2026]`; a 1-digit
year maps to 200x; 3-digit, 5-digit and non-numeric tokens raise
`ValueError` — but every 2-digit year raises `TypeError`, because the source
compares the `int` year against the `str` value `now_short`, instead of
mapping it to 19xx/20xx as the specification states. -/
theorem C1_fix_year_two_digit_raises :
    fix_year 2026 ("21".toList) = .error .typeError ∧
    fix_year 2026 ("99".toList) = .error .typeError ∧
    fix_year 2026 ("2021".toList) = .ok 2021 ∧
    fix_year 2026 ("1900".toList) = .ok 1900 ∧
    fix_year 2026 ("2026".toList) = .ok 2026 ∧
    fix_year 2026 ("2027".toList) = .error .valueError ∧
    fix_year 2026 ("1899".toList) = .error .valueError ∧
    fix_year 2026 ("5".toList) = .ok 2005 ∧
    fix_year 2026 ("123".toList) = .error .valueError ∧
    fix_year 2026 ("12345".toList) = .error .valueError ∧
    fix_year 2026 ("abc".toList) = .error .valueError :=
  ⟨rfl, rfl, rfl, rfl, rfl, rfl, rfl, rfl, rfl, rfl, rfl⟩

/-- C2 counterexample: with current year 2026, the Date Normalizer maps
`'March 2021'` to the sentinel `'unknown'`, not to `'2021-03-01'` as the
claim states — no branch of `fix_date` handles a space-separated
month-name date. -/
theorem C2_march_2021_counterexample :
    safe_fix_date 2026 ("March 2021".toList) ≠ "2021-03-01".toList := by
  decide

/-- C2 (amended): with any current year from 2021 on, the Date Normalizer
maps `'15/03/2021'` to `'2021-03-15'`, `'03/2021'` to `'2021-03-01'` (day
filled as 01 via the two-field month/year rule) and `'32/13/2021'` to the
sentinel `'unknown'` (all three orderings fail), as the claim states; but
`'March 2021'` maps to the sentinel `'unknown'`, not `'2021-03-01'`: no
branch of `fix_date` handles a space-separated month-name date, so the
string falls to the no-delimiter branch and is not all digits. -/
theorem C2_round_trip_amended (now : Nat) (h : 2021 ≤ now) :
    safe_fix_date now ("15/03/2021".toList) = "2021-03-15".toList ∧
    safe_fix_date now ("03/2021".toList) = "2021-03-01".toList ∧
    safe_fix_date now ("March 2021".toList) = "unknown".toList ∧
    safe_fix_date now ("32/13/2021".toList) = "unknown".toList := by
  refine ⟨?_, ?_, rfl, rfl⟩
  · unfold safe_fix_date
    rw [show fix_date now ("15/03/2021".toList)
          = (get_date_d_m_y now ("15/03/2021".toList) '/').map fmtDate from rfl,
        get_date_d_m_y_ex now h]
    rfl
  · unfold safe_fix_date
    rw [show fix_date now ("03/2021".toList)
          = (get_date_m_y now ("03/2021".toList) '/').map fmtDate from rfl,
        get_date_m_y_ex now h]
    rfl

/-- Witness for C2's amended theorem at the concrete current year 2026. -/
theorem C2_round_trip_amended_witness :
    2021 ≤ 2026 ∧
    (safe_fix_date 2026 ("15/03/2021".toList) = "2021-03-15".toList ∧
     safe_fix_date 2026 ("03/2021".toList) = "2021-03-01".toList ∧
     safe_fix_date 2026 ("March 2021".toList) = "unknown".toList ∧
     safe_fix_date 2026 ("32/13/2021".toList) = "unknown".toList) :=
  ⟨by norm_num, C2_round_trip_amended 2026 (by norm_num)⟩

/-- Characters stripped by the query language's `trim()`. -/
def cTrim (s : List Char) : List Char :=
  ((s.dropWhile isPyWhite).reverse.dropWhile isPyWhite).reverse

/-- Try the regex ` *: *` at the head of the string: zero or more spaces,
a colon, then greedily zero or more spaces; on success return the
remainder after the consumed region. -/
def matchColonAt (s : List Char) : Option (List Char) :=
  match s.dropWhile (fun c => c = ' ') with
  | ':' :: rest => some (rest.dropWhile (fun c => c = ' '))
  | _ => none

/-- Fuelled body of `apoc.text.replace(value, ' *: *', ':')`: scan left to
right, replacing each (leftmost, greedy) match of ` *: *` by `:`. Every
match consumes at least the colon, so fuel `s.length + 1` always
suffices. -/
def replColonSpacesF : Nat → List Char → List Char
  | 0, s => s
  | fuel + 1, s =>
      match matchColonAt s with
      | some rest => ':' :: replColonSpacesF fuel rest
      | none =>
        match s with
        | [] => []
        | c :: cs => c :: replColonSpacesF fuel cs

/-- `apoc.text.replace(value, ' *: *', ':')` at sufficient fuel. -/
def replColonSpaces (s : List Char) : List Char := replColonSpacesF (s.length + 1) s

/-- `apoc.text.indexOf(text, ':')`: index of the first colon, `-1` when
there is none. -/
def idxOfColon (s : List Char) : Int :=
  match s.findIdx? (fun c => c = ':') with
  | some i => (i : Int)
  | none => -1

/-- `toLower` over a whole string. -/
def strToLower (s : List Char) : List Char := s.map Char.toLower

/-- Embedding of `PostProcessingDB.fix_geo_name` (src/database/load_db.py,
lines 737-756) as its effect on one present `geo_loc_name` value. The
method issues four update statements in order over the whole graph, so on a
single property value they compose sequentially:
1. trim and normalize spaces around `:`;
2. append `:unknown` when no colon occurs (`indexOf = -1`);
3. prepend `unknown:` when the colon is the first symbol (`indexOf = 0`);
4. set `unknown:unknown` when the value is the empty string.
Step 4 mirrors the source's comment `#set unknown:unknown if the property
is set but empty`, but it can never fire: an empty value has already been
turned into `:unknown` by step 2 and then `unknown::unknown` by step 3. -/
def fix_geo_name (v : List Char) : List Char :=
  let s1 := cTrim (replColonSpaces v)
  let s2 := if idxOfColon s1 = -1 then s1 ++ (':' :: "unknown".toList) else s1
  let s3 := if idxOfColon s2 = 0 then ("unknown".toList ++ [':']) ++ s2 else s2
  if s3 = [] then "unknown:unknown".toList else s3

/-- The geo-location repair with the lowercase pass applied afterwards, as
the claim composes them. -/
def geoPipeline (v : List Char) : List Char := strToLower (fix_geo_name v)

/-- C3: with `set_lowercase` applied after `fix_geo_name`, the value
`'  USA : NYC '` becomes `'usa:nyc'` and a non-empty colon-free value such
as `'Germany'` becomes `'germany:unknown'`, as the claim states; but the
empty string becomes `'unknown::unknown'`, not `'unknown:unknown'`: the
append step (`indexOf = -1` on the empty string) and prepend step fire
first, so the final empty-value statement — whose source comment says
`set unknown:unknown if the property is set but empty` — never matches. -/
theorem C3_geo_name_empty_bug :
    geoPipeline ("  USA : NYC ".toList) = "usa:nyc".toList ∧
    geoPipeline ("Germany".toList) = "germany:unknown".toList ∧
    geoPipeline ("".toList) = "unknown::unknown".toList ∧
    geoPipeline ("".toList) ≠ "unknown:unknown".toList := by
  refine ⟨rfl, rfl, rfl, ?_⟩
  decide

/-- A `bases` node as `set_gc_ratio` sees it: its `G` and `C` base counts,
its `count`, and the derived ratio property (`none` when unset). Query
floats are modelled over `ℚ`. -/
structure BasesNode where
  G : Int
  C : Int
  count : Int
  gc_ratio : Option ℚ
  deriving DecidableEq

/-- Embedding of `PostProcessingDB.set_gc_ratio` (load_db.py lines
804-809): `match (n:bases) set n.GC_Ratio =
(toFloat(n.G)+toFloat(n.C))/toFloat(n.count)` — one update applied to
every `bases` node of the graph. -/
def set_gc_ratio (ns : List BasesNode) : List BasesNode :=
  ns.map (fun n => { n with gc_ratio := some (((n.G : ℚ) + (n.C : ℚ)) / (n.count : ℚ)) })

/-- C6: after the repair step every `bases` node carries
`GC_Ratio = (G + C) / count` over its own base counts, and the step is
idempotent: a second run with `G`, `C` and `count` unchanged produces the
identical graph (exact equality over `ℚ`, hence within any floating
tolerance). -/
theorem C6_gc_ratio_invariant_and_idempotent (ns : List BasesNode) :
    (∀ n ∈ set_gc_ratio ns, n.gc_ratio = some (((n.G : ℚ) + (n.C : ℚ)) / (n.count : ℚ))) ∧
    set_gc_ratio (set_gc_ratio ns) = set_gc_ratio ns := by
  constructor
  · intro n hn
    simp only [set_gc_ratio, List.mem_map] at hn
    obtain ⟨m, _, rfl⟩ := hn
    rfl
  · simp [set_gc_ratio]

/-- A graph property value: the store's value kinds that occur in this
pipeline (strings, integers after coercion, booleans). -/
inductive PVal where
  | s (v : List Char)
  | i (v : Int)
  | b (v : Bool)
  deriving DecidableEq

/-- A graph node: its label and its property map. -/
structure GNode where
  label : String
  props : List (String × PVal)
  deriving DecidableEq

/-- Cypher `x =~ '.*'`: the regex operator yields `null` unless the operand
is a string, and `'.*'` matches every string, so the result is `true`
exactly on strings. -/
def regexMatchesAnyStr : PVal → Option Bool
  | .s _ => some true
  | _ => none

/-- A Cypher `WHERE` keeps a row only when its predicate is `true` (not
`null`). -/
def whereKeeps (v : Option Bool) : Bool := v = some true

/-- Cypher `toLower` as applied by `set_lowercase`; the key filter
guarantees the argument is a string. -/
def pvalToLower : PVal → PVal
  | .s v => .s (strToLower v)
  | v => v

/-- Embedding of `PostProcessingDB.set_lowercase` (load_db.py lines
780-791): match every node that is neither `sra_file` nor `cloud_file`;
collect `[x IN keys(n) WHERE n[x] =~ '.*']` — exactly the string-valued
keys; then `apoc.create.setProperty(n, p, toLower(n[p]))` for each
collected key. -/
def set_lowercase (g : List GNode) : List GNode :=
  g.map (fun n =>
    if n.label = "sra_file" ∨ n.label = "cloud_file" then n
    else
      let keys := (n.props.filter (fun kv => whereKeeps (regexMatchesAnyStr kv.2))).map Prod.fst
      { n with props := n.props.map (fun kv =>
          if kv.1 ∈ keys then (kv.1, pvalToLower kv.2) else kv) })

/-- The lowercase pass as the claim states it: file-link nodes are left
entirely unchanged; on every other node each string-valued property is
lowercased and every other property kept as is. -/
def set_lowercase_claim (g : List GNode) : List GNode :=
  g.map (fun n =>
    if n.label = "sra_file" ∨ n.label = "cloud_file" then n
    else { n with props := n.props.map (fun kv => (kv.1, pvalToLower kv.2)) })

/-- C8: `set_lowercase` lowercases every string-valued property of every
node except those labelled `sra_file` or `cloud_file`, whose properties it
leaves entirely unchanged — the Cypher key filter `n[x] =~ '.*'` selects
exactly the string-valued keys, and lowering a key selected through a
duplicate is the identity on non-strings. -/
theorem C8_set_lowercase_frame (g : List GNode) :
    set_lowercase g = set_lowercase_claim g := by
  unfold set_lowercase set_lowercase_claim
  apply List.map_congr_left
  intro n _
  by_cases hl : n.label = "sra_file" ∨ n.label = "cloud_file"
  · simp [hl]
  · simp only [if_neg hl]
    congr 1
    apply List.map_congr_left
    intro kv hkv
    by_cases hs : kv.1 ∈ (n.props.filter
        (fun kv => whereKeeps (regexMatchesAnyStr kv.2))).map Prod.fst
    · simp [hs]
    · rw [if_neg hs]
      cases kv with
      | mk k v =>
        cases v with
        | s t =>
            exfalso
            exact hs (List.mem_map.mpr ⟨(k, .s t),
              List.mem_filter.mpr ⟨hkv, by simp [whereKeeps, regexMatchesAnyStr]⟩, rfl⟩)
        | i t => rfl
        | b t => rfl

/-- A Python attribute value as fed to `escape_attrib`: strings, the
scalars appearing in this code base (ints, bools, None), lists and
dicts. -/
inductive PyVal where
  | str (s : List Char)
  | int (i : Int)
  | boolean (b : Bool)
  | noneV
  | list (l : List PyVal)
  | dict (d : List (String × PyVal))

/-- First `re.sub` pass of `escape_attrib` (helper_functions.py line 63):
double every backslash. -/
def escapeBackslashes (s : List Char) : List Char :=
  s.flatMap (fun c => if c = '\\' then ['\\', '\\'] else [c])

/-- Second `re.sub` pass (line 65): prefix every double quote with a
backslash; it runs on the output of the first pass. -/
def escapeQuotes (s : List Char) : List Char :=
  s.flatMap (fun c => if c = '"' then ['\\', '"'] else [c])

/-- The string case of `escape_attrib`: the two passes composed in source
order. -/
def escapeStr (s : List Char) : List Char := escapeQuotes (escapeBackslashes s)

/-- Python `str(...)` for the non-string scalars of `PyVal`. -/
def pyStrScalar : PyVal → List Char
  | .int i => pyStrInt i
  | .boolean true => "True".toList
  | .boolean false => "False".toList
  | _ => "None".toList

mutual

/-- Embedding of `escape_attrib` (helper_functions.py lines 59-82): a
string gets the two `re.sub` passes; a list or dict is escaped elementwise
or valuewise; any other value is converted with `str(...)` and the result
escaped through the string case (the source reaches it via one recursive
call on the converted string). -/
def escape_attrib : PyVal → PyVal
  | .str s => .str (escapeStr s)
  | .list l => .list (escapeList l)
  | .dict d => .dict (escapeDict d)
  | v => .str (escapeStr (pyStrScalar v))

/-- The `for i in attributes` loop of the list case. -/
def escapeList : List PyVal → List PyVal
  | [] => []
  | v :: vs => escape_attrib v :: escapeList vs

/-- The `for k, v in attributes.items()` loop of the dict case. -/
def escapeDict : List (String × PyVal) → List (String × PyVal)
  | [] => []
  | (k, v) :: kvs => (k, escape_attrib v) :: escapeDict kvs

end

mutual

/-- Every leaf (string or scalar position) of the value is a string. -/
def allStrLeaves : PyVal → Bool
  | .str _ => true
  | .list l => allStrLeavesList l
  | .dict d => allStrLeavesDict d
  | _ => false

/-- `allStrLeaves` over a list of values. -/
def allStrLeavesList : List PyVal → Bool
  | [] => true
  | v :: vs => allStrLeaves v && allStrLeavesList vs

/-- `allStrLeaves` over dict entries. -/
def allStrLeavesDict : List (String × PyVal) → Bool
  | [] => true
  | (_, v) :: kvs => allStrLeaves v && allStrLeavesDict kvs

end

mutual

/-- The escaped value of every input has only string leaves. -/
theorem escape_attrib_allStrLeaves : ∀ (v : PyVal),
    allStrLeaves (escape_attrib v) = true
  | .str _ => rfl
  | .int _ => rfl
  | .boolean true => rfl
  | .boolean false => rfl
  | .noneV => rfl
  | .list l => by
      show allStrLeavesList (escapeList l) = true
      exact escapeList_allStrLeaves l
  | .dict d => by
      show allStrLeavesDict (escapeDict d) = true
      exact escapeDict_allStrLeaves d

/-- The leaf property over an escaped value list. -/
theorem escapeList_allStrLeaves : ∀ (l : List PyVal),
    allStrLeavesList (escapeList l) = true
  | [] => rfl
  | v :: vs => by
      show (allStrLeaves (escape_attrib v) && allStrLeavesList (escapeList vs)) = true
      rw [escape_attrib_allStrLeaves v, escapeList_allStrLeaves vs]
      rfl

/-- The leaf property over escaped dict entries. -/
theorem escapeDict_allStrLeaves : ∀ (d : List (String × PyVal)),
    allStrLeavesDict (escapeDict d) = true
  | [] => rfl
  | (_, v) :: kvs => by
      show (allStrLeaves (escape_attrib v) && allStrLeavesDict (escapeDict kvs)) = true
      rw [escape_attrib_allStrLeaves v, escapeDict_allStrLeaves kvs]
      rfl

end

/-- `escapeList` is the elementwise escape. -/
theorem escapeList_eq_map (l : List PyVal) :
    escapeList l = l.map escape_attrib := by
  induction l with
  | nil => rfl
  | cons v vs ih => rw [escapeList, ih, List.map_cons]

/-- `escapeDict` escapes each value and keeps each key. -/
theorem escapeDict_eq_map (d : List (String × PyVal)) :
    escapeDict d = d.map (fun kv => (kv.1, escape_attrib kv.2)) := by
  induction d with
  | nil => rfl
  | cons kv kvs ih =>
      cases kv with
      | mk k v => rw [escapeDict, ih, List.map_cons]

/-- C10: the attribute escaper preserves the shape of its input — a string
becomes the string with backslashes doubled and then quotes
backslash-prefixed; a list becomes the equal-length list of recursively
escaped elements; a dict keeps exactly its keys, in order, with each value
escaped recursively; the remaining scalars are stringified and escaped; and
every leaf of any result is a string. -/
theorem C10_escape_attrib_shape :
    (∀ s, escape_attrib (.str s) = .str (escapeStr s)) ∧
    (∀ l, escape_attrib (.list l) = .list (l.map escape_attrib) ∧
          (l.map escape_attrib).length = l.length) ∧
    (∀ d, escape_attrib (.dict d) = .dict (d.map (fun kv => (kv.1, escape_attrib kv.2))) ∧
          (d.map (fun kv => (kv.1, escape_attrib kv.2))).map Prod.fst = d.map Prod.fst) ∧
    (∀ i, escape_attrib (.int i) = .str (escapeStr (pyStrInt i))) ∧
    (∀ b, escape_attrib (.boolean b) = .str (escapeStr (pyStrScalar (.boolean b)))) ∧
    (escape_attrib .noneV = .str (escapeStr ("None".toList))) ∧
    (∀ v, allStrLeaves (escape_attrib v) = true) := by
  refine ⟨fun s => rfl, fun l => ⟨?_, by simp⟩, fun d => ⟨?_, by simp⟩,
          fun i => rfl, fun b => ?_, rfl, escape_attrib_allStrLeaves⟩
  · rw [escape_attrib, escapeList_eq_map]
  · rw [escape_attrib, escapeDict_eq_map]
  · cases b <;> rfl

/-- Fuelled body of `batch` (helper_functions.py lines 84-88): successive
slices `iterable[ndx : ndx+n]` for `ndx = 0, n, 2n, ...`. Each step with
`0 < n` consumes at least one element, so fuel `l.length + 1` always
suffices; Python raises `ValueError` for step `0`, a case no caller
reaches (`clean_dates` passes `batchsize = 20000`). -/
def batchChunksF {α : Type} : Nat → Nat → List α → List (List α)
  | 0, _, _ => []
  | _ + 1, _, [] => []
  | fuel + 1, n, a :: l => ((a :: l).take n) :: batchChunksF fuel n ((a :: l).drop n)

/-- The `batch` generator at sufficient fuel. -/
def batchChunks {α : Type} (n : Nat) (l : List α) : List (List α) :=
  batchChunksF (l.length + 1) n l

/-- Every chunk `batch` yields has at most `n` elements. -/
theorem batchChunksF_length_le {α : Type} :
    ∀ (fuel n : Nat) (l : List α), 0 < n →
      ∀ c ∈ batchChunksF fuel n l, c.length ≤ n := by
  intro fuel
  induction fuel with
  | zero => intro n l _ c hc; simp [batchChunksF] at hc
  | succ fuel ih =>
      intro n l hn c hc
      cases l with
      | nil => cases hc
      | cons a l =>
          rw [batchChunksF] at hc
          rcases List.mem_cons.mp hc with h | h
          · subst h; exact List.length_take_le n (a :: l)
          · exact ih n _ hn c h

/-- The chunks `batch` yields concatenate back to the input list. -/
theorem batchChunksF_join {α : Type} :
    ∀ (fuel n : Nat) (l : List α), 0 < n → l.length < fuel →
      (batchChunksF fuel n l).flatten = l := by
  intro fuel
  induction fuel with
  | zero => intro n l _ h; omega
  | succ fuel ih =>
      intro n l hn hlen
      cases l with
      | nil => rfl
      | cons a l =>
          rw [batchChunksF, List.flatten_cons]
          rw [ih n ((a :: l).drop n) hn (by simp at hlen ⊢; omega)]
          exact List.take_append_drop n (a :: l)

/-- Chunk bound, specialized to `batchChunks`. -/
theorem batchChunks_length_le {α : Type} (n : Nat) (l : List α) (hn : 0 < n) :
    ∀ c ∈ batchChunks n l, c.length ≤ n :=
  batchChunksF_length_le (l.length + 1) n l hn

/-- Concatenation identity, specialized to `batchChunks`. -/
theorem batchChunks_join {α : Type} (n : Nat) (l : List α) (hn : 0 < n) :
    (batchChunks n l).flatten = l :=
  batchChunksF_join (l.length + 1) n l hn (by omega)

/-- One per-node update record of `clean_dates`: the node id, the date
property being handled and the date value carried by the record (the
original value for removals, the cleaned value for writes). -/
structure UpdRec where
  nodeId : Nat
  prop : String
  date : List Char
  deriving DecidableEq

/-- The collection loop of `PostProcessingDB.clean_dates` (load_db.py lines
716-731) for one `attrib`: for each configured property, read its records
`(id, date)` and classify each through `safe_fix_date` — sentinel results
go to `missing` (original date kept), all others to `cleaned` with the
date replaced by the cleaned value. Appending at the tail mirrors
`list.append`. -/
def collectDateUpdates (now : Nat)
    (groups : List (String × List (Nat × List Char))) : List UpdRec × List UpdRec :=
  groups.foldl (fun acc g =>
    g.2.foldl (fun acc r =>
      let clean := safe_fix_date now r.2
      if clean = "unknown".toList then (acc.1 ++ [⟨r.1, g.1, r.2⟩], acc.2)
      else (acc.1, acc.2 ++ [⟨r.1, g.1, clean⟩])) acc) ([], [])

/-- A transaction submitted by `clean_dates`: one `batch_run_cql` call with
the chunk as its `$batch` parameter — property removals for unparseable
dates, property writes for cleaned dates. -/
inductive DateTxn where
  | removeProps (chunk : List UpdRec)
  | setProps (chunk : List UpdRec)
  deriving DecidableEq

/-- The chunk a transaction carries. -/
def txnChunk : DateTxn → List UpdRec
  | .removeProps c => c
  | .setProps c => c

/-- The transaction sequence one `attrib`-iteration of `clean_dates`
(lines 732-735) submits: the `missing` chunks, then the `cleaned` chunks,
one transaction per chunk of size `batchsize`. -/
def clean_dates_txns (now batchsize : Nat)
    (groups : List (String × List (Nat × List Char))) : List DateTxn :=
  let mc := collectDateUpdates now groups
  (batchChunks batchsize mc.1).map DateTxn.removeProps ++
    (batchChunks batchsize mc.2).map DateTxn.setProps

/-- The removal chunk of a transaction, when it is one. -/
def remExtract : DateTxn → Option (List UpdRec)
  | .removeProps c => some c
  | _ => Option.none

/-- The write chunk of a transaction, when it is one. -/
def setExtract : DateTxn → Option (List UpdRec)
  | .setProps c => some c
  | _ => Option.none

/-- Extracting removal chunks from a removal-transaction list recovers it. -/
theorem remExtract_of_removes (l : List (List UpdRec)) :
    (l.map DateTxn.removeProps).filterMap remExtract = l := by
  induction l with
  | nil => rfl
  | cons c cs ih => simp [List.filterMap_cons, remExtract, ih]

/-- Write transactions carry no removal chunks. -/
theorem remExtract_of_sets (l : List (List UpdRec)) :
    (l.map DateTxn.setProps).filterMap remExtract = [] := by
  induction l with
  | nil => rfl
  | cons c cs ih => simp [List.filterMap_cons, remExtract, ih]

/-- Extracting write chunks from a write-transaction list recovers it. -/
theorem setExtract_of_sets (l : List (List UpdRec)) :
    (l.map DateTxn.setProps).filterMap setExtract = l := by
  induction l with
  | nil => rfl
  | cons c cs ih => simp [List.filterMap_cons, setExtract, ih]

/-- Removal transactions carry no write chunks. -/
theorem setExtract_of_removes (l : List (List UpdRec)) :
    (l.map DateTxn.removeProps).filterMap setExtract = [] := by
  induction l with
  | nil => rfl
  | cons c cs ih => simp [List.filterMap_cons, setExtract, ih]

/-- C9: `clean_dates` partitions its per-node update records — removals of
unparseable dates and writes of cleaned dates — into consecutive chunks of
at most `batchsize` items, submits one transaction per chunk, and the
in-order concatenation of the removal chunks (resp. write chunks) is
exactly the collected `missing` (resp. `cleaned`) list, so every collected
record is applied exactly once. -/
theorem C9_clean_dates_batching (now batchsize : Nat)
    (groups : List (String × List (Nat × List Char))) (hn : 0 < batchsize) :
    (∀ t ∈ clean_dates_txns now batchsize groups,
        (txnChunk t).length ≤ batchsize) ∧
    ((clean_dates_txns now batchsize groups).filterMap remExtract).flatten
      = (collectDateUpdates now groups).1 ∧
    ((clean_dates_txns now batchsize groups).filterMap setExtract).flatten
      = (collectDateUpdates now groups).2 := by
  refine ⟨?_, ?_, ?_⟩
  · intro t ht
    rcases List.mem_append.mp ht with h | h <;>
      rcases List.mem_map.mp h with ⟨c, hc, rfl⟩
    · exact batchChunks_length_le batchsize _ hn c hc
    · exact batchChunks_length_le batchsize _ hn c hc
  · rw [clean_dates_txns]
    simp only [List.filterMap_append, remExtract_of_removes, remExtract_of_sets,
      List.append_nil]
    exact batchChunks_join _ _ hn
  · rw [clean_dates_txns]
    simp only [List.filterMap_append, setExtract_of_sets, setExtract_of_removes,
      List.nil_append]
    exact batchChunks_join _ _ hn

/-- Witness for C9 at `batchsize = 20000` on a concrete record set (one
parseable and one unparseable `collection_date`). -/
theorem C9_clean_dates_batching_witness :
    0 < 20000 ∧
    ((∀ t ∈ clean_dates_txns 2026 20000
          [("collection_date", [(1, "15/03/2021".toList), (2, "rubbish".toList)])],
        (txnChunk t).length ≤ 20000) ∧
     ((clean_dates_txns 2026 20000
          [("collection_date", [(1, "15/03/2021".toList), (2, "rubbish".toList)])]).filterMap
          remExtract).flatten
       = (collectDateUpdates 2026
          [("collection_date", [(1, "15/03/2021".toList), (2, "rubbish".toList)])]).1 ∧
     ((clean_dates_txns 2026 20000
          [("collection_date", [(1, "15/03/2021".toList), (2, "rubbish".toList)])]).filterMap
          setExtract).flatten
       = (collectDateUpdates 2026
          [("collection_date", [(1, "15/03/2021".toList), (2, "rubbish".toList)])]).2) :=
  ⟨by norm_num,
   C9_clean_dates_batching 2026 20000
     [("collection_date", [(1, "15/03/2021".toList), (2, "rubbish".toList)])]
     (by norm_num)⟩

/-- A worker submitted to the thread pool by `async_from_query`. -/
inductive Worker where
  | dbConsumer
  | parser (i : Nat)
  | idProducer (retstart : Nat)
  deriving DecidableEq

/-- Fuelled Python `range(start, stop, step)` for a positive step; each
element advances `start` by at least one, so fuel `stop - start + 1`
always suffices. -/
def pyRangeF : Nat → Nat → Nat → Nat → List Nat
  | 0, _, _, _ => []
  | fuel + 1, start, stop, step =>
      if start < stop then start :: pyRangeF fuel (start + step) stop step else []

/-- Python `range(start, stop, step)` at sufficient fuel. -/
def pyRange (start stop step : Nat) : List Nat :=
  pyRangeF (stop - start + 1) start stop step

/-- The cross-thread state of `AsyncEntrez` (load_db.py lines 1137-1162)
that the termination and error-handling claims read: the producer-done and
parser-done events, the abort event, the error and abort flags, the db
counter, and the adjusted configuration. -/
structure AsyncEntrez where
  retmax : Int
  maxParsers : Int
  batchSize : Int
  prod : Bool
  pars : Bool
  eventAbort : Bool
  error : Bool
  abort : Bool
  dbCounter : Int
  deriving DecidableEq

/-- Embedding of `AsyncEntrez.__init__`: nonpositive `retmax`,
`max_parsers` and `batch` fall back to the defaults 500, 2 and 100; both
stage events and the abort event start cleared; `error` and `abort` start
false; `db_counter` starts at `start_id`. -/
def mkAsyncEntrez (retmax batch max_parsers start_id : Int) : AsyncEntrez :=
  { retmax := if retmax ≤ 0 then 500 else retmax
    maxParsers := if max_parsers ≤ 0 then 2 else max_parsers
    batchSize := if batch ≤ 0 then 100 else batch
    prod := false, pars := false, eventAbort := false
    error := false, abort := false, dbCounter := start_id }

/-- Embedding of `AsyncEntrez.async_from_query` (lines 1201-1232),
recording the workers submitted to the pool: with `count = 0` the function
returns before creating the pool or any worker; otherwise it starts the
single DB consumer, parser 0, one ID producer per page of
`range(0, count, retmax)`, and then parsers `1 .. max_parsers - 1`. -/
def async_from_query (st : AsyncEntrez) (count : Nat) : AsyncEntrez × List Worker :=
  if count = 0 then (st, [])
  else
    (st,
     Worker.dbConsumer :: Worker.parser 0 ::
       ((pyRange 0 count st.retmax.toNat).map Worker.idProducer ++
        (pyRange 1 st.maxParsers.toNat 1).map Worker.parser))

/-- Embedding of `LoadingDB.run` with `async_load_sra_from_query` (lines
92-109): the async loader is created with `retmax = 150`, `batch = 150`,
default `max_parsers = 2` and `start_id = 0`, run on the query, and the
`finished` signal is emitted with payload `abort | error`. The result is
the started workers, the number of ingested records
(`db_counter - start_id`) and the emitted payload. -/
def loadingDBRun (count : Nat) : List Worker × Int × Bool :=
  let st := mkAsyncEntrez 150 150 2 0
  let (st2, ws) := async_from_query st count
  (ws, st2.dbCounter - 0, st2.abort || st2.error)

/-- The GUI slot `_pp` connected to `LoadingDB.finished`
(src/gui/app.py lines 760-782): a `True` payload takes the
aborted/corrupted branch, a `False` payload continues into
postprocessing — so the payload is a failure flag. -/
def finishedPayloadMeansFailure (b : Bool) : Bool := b

/-- C4: when the initial result-count query returns `Count = 0`, the
pipeline completes immediately: no producer, parser or consumer worker is
started, zero records are ingested, and the emitted terminal payload
`abort | error` is `False`, which the connected GUI slot reads as
success. -/
theorem C4_count_zero_completes_immediately :
    (loadingDBRun 0).1 = [] ∧
    (loadingDBRun 0).2.1 = 0 ∧
    (loadingDBRun 0).2.2 = false ∧
    finishedPayloadMeansFailure (loadingDBRun 0).2.2 = false :=
  ⟨rfl, rfl, rfl, rfl⟩

/-- Embedding of `AsyncEntrez.handle_error` (lines 1164-1170): set the
producer-done event, the parser-done event, the error flag and the abort
event; everything else is untouched. -/
def handle_error (st : AsyncEntrez) : AsyncEntrez :=
  { st with prod := true, pars := true, error := true, eventAbort := true }

/-- Fuelled embedding of the `DB_Runner.run` loop (lines 982-999) at fixed
flag values: guard `not (db_queue.empty() and pars.is_set())`, abort break
at the loop top, one `get`-and-consume per iteration, a backoff sleep when
the queue is momentarily empty. Returns how many records are consumed. -/
def dbRunnerConsumed {α : Type} : Nat → List α → Bool → Bool → Nat
  | 0, _, _, _ => 0
  | fuel + 1, q, pars, ab =>
      if !(q.isEmpty && pars) then
        if ab then 0
        else
          match q with
          | [] => dbRunnerConsumed fuel ([] : List α) pars ab
          | _ :: rest => 1 + dbRunnerConsumed fuel rest pars ab
      else 0

/-- Fuelled embedding of the `Parser_Runner.run` loop (lines 1078-1104) at
fixed flag values: guard `not (id_queue.empty() and prod.is_set())`, abort
break at the loop top, then up to `batch` ids drained and fetched per
iteration, or a backoff sleep when none were available. Returns how many
ids are consumed. -/
def parserConsumed {α : Type} : Nat → List α → Nat → Bool → Bool → Nat
  | 0, _, _, _, _ => 0
  | fuel + 1, q, batch, prod, ab =>
      if !(q.isEmpty && prod) then
        if ab then 0
        else
          let taken := min batch q.length
          if taken ≠ 0 then taken + parserConsumed fuel (q.drop batch) batch prod ab
          else parserConsumed fuel q batch prod ab
      else 0

/-- Embedding of the `ID_Runner.run` body (lines 1026-1041): the single
fetch is guarded by `if not self.parent.event_abort.is_set()`. -/
def idRunnerDoesWork (ab : Bool) : Bool := !ab

/-- C5: on any unhandled worker exception, `handle_error` sets the shared
abort event, marks both the producer-done and parser-done events, and
records the error; with the abort event set, the DB consumer loop and
every parser loop exit at their first guard without consuming anything
further, a producer performs no fetch, and the terminal status
`abort | error` is failure. -/
theorem C5_fault_escalation (st : AsyncEntrez) :
    (handle_error st).prod = true ∧
    (handle_error st).pars = true ∧
    (handle_error st).error = true ∧
    (handle_error st).eventAbort = true ∧
    ((handle_error st).abort || (handle_error st).error) = true ∧
    (∀ (α : Type) (fuel : Nat) (q : List α) (pars : Bool),
        dbRunnerConsumed fuel q pars (handle_error st).eventAbort = 0) ∧
    (∀ (α : Type) (fuel : Nat) (q : List α) (batch : Nat) (prod : Bool),
        parserConsumed fuel q batch prod (handle_error st).eventAbort = 0) ∧
    idRunnerDoesWork (handle_error st).eventAbort = false := by
  refine ⟨rfl, rfl, rfl, rfl, by simp [handle_error], ?_, ?_, rfl⟩
  · intro α fuel q pars
    cases fuel with
    | zero => rfl
    | succ fuel => simp [handle_error, dbRunnerConsumed]
  · intro α fuel q batch prod
    cases fuel with
    | zero => rfl
    | succ fuel => simp [handle_error, parserConsumed]

/-- Decimal string of a natural number (`"%s" % i` on a Python int). -/
def natS (n : Nat) : String := String.mk (natStr n)

/-- One statement the mapper emits: `cql_create` keeps the label, attribute
dict, bound variable and merge flag; `cql_relation` keeps source variable,
relationship type, target variable, merge flag and attribute dict.
Attribute values are the (escaped) rendered strings. -/
inductive Cql where
  | create (label : String) (attrs : List (String × String)) (var : String) (merge : Bool)
  | rel (src relation dst : String) (merge : Bool) (attrs : List (String × String))
  deriving DecidableEq

/-- Python `{**d1, **d2}` (`merge_dict`, also dict item assignment): keys
of `d1` in order with values overridden by `d2` where present, then the
new keys of `d2` in order. -/
def mergeDict (d1 d2 : List (String × String)) : List (String × String) :=
  d1.map (fun kv =>
    match d2.lookup kv.1 with
    | some v => (kv.1, v)
    | Option.none => kv) ++
  d2.filter (fun kv => (d1.lookup kv.1).isNone)

/-- The per-run data `_cql_of_runs` (load_db.py lines 459-511) consumes,
as extracted from the XML by the `_get_*` helpers: the run's own attribute
dict (`run_dom.attrib`, before `exp_pkg` is added), the statistics —
`none` models a missing `Statistics` element, and a present pair holds the
statistics attributes and the `reads` list (empty when there are no `Read`
children) — the pool member dicts, the run attribute dict
(`_get_attributes`, before `exp_pkg` is added), the SRA and cloud file
dicts, and the bases dict as `_get_bases` returns it (empty when the
element is missing). -/
structure RunData where
  attrs : List (String × String)
  stats? : Option (List (String × String) × List (List (String × String)))
  pool : List (List (String × String))
  runAttribs : List (String × String)
  sraFiles : List (List (String × String))
  cloudFiles : List (List (String × String))
  bases : List (String × String)
  deriving DecidableEq

/-- One read specification as `_get_read_spec` extracts it: the attribute
dict and the basecall dicts stored under its `basecalls` key (which
`_cql_of_reads` pops before creating the node). -/
structure ReadSpec where
  attrs : List (String × String)
  basecalls : List (List (String × String))
  deriving DecidableEq

/-- The design-side data `_cql_of_experiment` (lines 373-395) consumes, as
extracted by `_get_design`, `_get_library`, `_get_spot_descriptor`
(empty dict when the element is missing), `_get_read_specs`,
`_get_instrument` and `_get_experiment`. -/
structure ExpData where
  design : List (String × String)
  library : List (String × String)
  spotDescriptor : List (String × String)
  readSpecs : List ReadSpec
  instrument : List (String × String)
  experiment : List (String × String)
  deriving DecidableEq

/-- Modelled from the spec: the constant `xml_READ_INDEX` of the module
`database/xml_keywords.py`, which is not among the sources; per the data
model of the record-to-graph mapper, a read specification's index is
stored under the `READ_INDEX` tag of the external record. -/
def xml_READ_INDEX : String := "READ_INDEX"

/-- Embedding of `_cql_of_reads` (lines 357-371): per read spec, pop the
basecalls, create the `read` node `rd<READ_INDEX>` and its `hasRead` edge
from the design, then one `basecall` node and `hasBasecall` edge per
basecall. `rd[xml_READ_INDEX]` raises `KeyError` when the key is absent. -/
def cqlOfReads : List ReadSpec → Except PyErr (List Cql)
  | [] => .ok []
  | rd :: rest =>
      match rd.attrs.lookup xml_READ_INDEX with
      | Option.none => .error .keyError
      | some idx =>
          match cqlOfReads rest with
          | .error e => .error e
          | .ok tail =>
              .ok (([Cql.create "read" rd.attrs ("rd" ++ idx) false,
                     Cql.rel "des" "hasRead" ("rd" ++ idx) false []] ++
                    (rd.basecalls.enum.map (fun bj =>
                      [Cql.create "basecall" bj.2 ("bc" ++ idx ++ natS bj.1) false,
                       Cql.rel ("rd" ++ idx) "hasBasecall" ("bc" ++ idx ++ natS bj.1)
                         false []])).flatten) ++ tail)

/-- Embedding of `_cql_of_read_statistics` (lines 446-457): for each read
dict take `j = read['index']` (`KeyError` when absent), bind the target
variable `rd<j>` — overridden to the shared `rd` when `empty_read` — and
emit the `readStatistics` relationship from the run carrying the read
attributes. -/
def cqlOfReadStatistics (runVar : String) (emptyRead : Bool) :
    List (List (String × String)) → Except PyErr (List Cql)
  | [] => .ok []
  | read :: rest =>
      match read.lookup "index" with
      | Option.none => .error .keyError
      | some j =>
          let s := if emptyRead then "rd" else "rd" ++ j
          match cqlOfReadStatistics runVar emptyRead rest with
          | .error e => .error e
          | .ok tail => .ok (Cql.rel runVar "readStatistics" s false read :: tail)

/-- Embedding of `_cql_of_experiment` (lines 373-395) together with the
`cql_has_reads` flag it stores on the instance: design and library creates
with the `usingLibrary` edge, the spot descriptor when its dict is truthy,
the read-spec statements when any read spec exists (recorded in
`cql_has_reads`), then the platform merge, the experiment create and the
`hasDesign` / `usingInstrument` edges. -/
def cqlOfExperiment (e : ExpData) : Except PyErr (List Cql × Bool) :=
  let spdCql := if !e.spotDescriptor.isEmpty then
      [Cql.create "spot_descriptor" e.spotDescriptor "spd" false,
       Cql.rel "des" "hasSpotDescriptor" "spd" false []]
    else []
  let hasReads := !e.readSpecs.isEmpty
  match (if hasReads then cqlOfReads e.readSpecs else .ok []) with
  | .error er => .error er
  | .ok readsCql =>
      .ok ([Cql.create "design" e.design "des" false,
            Cql.create "library" e.library "lib" false,
            Cql.rel "des" "usingLibrary" "lib" false []] ++
           spdCql ++ readsCql ++
           [Cql.create "platform" e.instrument "inst" true,
            Cql.create "experiment" e.experiment "exp" false,
            Cql.rel "exp" "hasDesign" "des" false [],
            Cql.rel "exp" "usingInstrument" "inst" false []], hasReads)

/-- The `if reads:` block of `_cql_of_runs` (lines 470-479) for run `i`:
when the record's design carried no read specs (`cql_has_reads` false),
the shared placeholder `read` node is created for the first run only
(`if i < 1`) and the statistics edges are emitted with `empty_read=True`;
otherwise the edges target the per-index read variables. -/
def cqlOfRunReads (hasReads : Bool) (n i : Nat) (runVar : String)
    (reads : List (List (String × String))) : Except PyErr (List Cql) :=
  if !reads.isEmpty then
    if !hasReads then
      match cqlOfReadStatistics runVar true reads with
      | .error e => .error e
      | .ok stats =>
          .ok ((if i < 1 then
                  [Cql.create "read" [("exp_pkg", natS n)] "rd" false]
                else []) ++ stats)
    else cqlOfReadStatistics runVar false reads
  else .ok []

/-- The body of the `_cql_of_runs` loop (lines 462-510) for run number `i`:
merge `exp_pkg` into the run attributes (`_get_run`), merge the truthy
statistics attributes after popping `reads`, create the `run` node, emit
the read-statistics block, the `hasRun` edge, the pool member nodes and
edges, the run attributes (with `exp_pkg` added by
`_get_run_attributes`), the SRA file links, the cloud file links (merged)
and the bases node. -/
def cqlOfRun (hasReads : Bool) (n i : Nat) (run : RunData) : Except PyErr (List Cql) :=
  let rBase := mergeDict run.attrs [("exp_pkg", natS n)]
  let rReads :=
    match run.stats? with
    | some (a, rds) =>
        if !(a.isEmpty && rds.isEmpty) then (mergeDict rBase a, rds) else (rBase, [])
    | Option.none => (rBase, [])
  let runVar := "run" ++ natS i
  match cqlOfRunReads hasReads n i runVar rReads.2 with
  | .error e => .error e
  | .ok readsCql =>
      let poolCql := (run.pool.enum.map (fun mj =>
          [Cql.create "member" mj.2 ("mem" ++ natS i ++ natS mj.1) true,
           Cql.rel runVar "hasPoolData" ("mem" ++ natS i ++ natS mj.1) false []])).flatten
      let att := mergeDict run.runAttribs [("exp_pkg", natS n)]
      let attCql := if !att.isEmpty then
          [Cql.create "run_attrib" att ("run_att" ++ natS i) false,
           Cql.rel runVar "hasRunAttribute" ("run_att" ++ natS i) false []]
        else []
      let sraCql := (run.sraFiles.enum.map (fun fj =>
          [Cql.create "sra_file" fj.2 ("sra_f" ++ natS i ++ natS fj.1) false,
           Cql.rel runVar "hasSRAFile" ("sra_f" ++ natS i ++ natS fj.1) false []])).flatten
      let cloudCql := (run.cloudFiles.enum.map (fun fj =>
          [Cql.create "cloud_file" fj.2 ("cloud_f" ++ natS i ++ natS fj.1) true,
           Cql.rel runVar "hasCloudFile" ("cloud_f" ++ natS i ++ natS fj.1) false []])).flatten
      let basesCql := if !run.bases.isEmpty then
          [Cql.create "bases" run.bases ("bas" ++ natS i) false,
           Cql.rel runVar "hasBases" ("bas" ++ natS i) false []]
        else []
      .ok ([Cql.create "run" rReads.1 runVar false] ++ readsCql ++
           [Cql.rel "exp" "hasRun" runVar false []] ++
           poolCql ++ attCql ++ sraCql ++ cloudCql ++ basesCql)

/-- The `for i, run in enumerate(runs)` loop of `_cql_of_runs`, carried
out from start index `i`. -/
def cqlOfRunsGo (hasReads : Bool) (n : Nat) : Nat → List RunData → Except PyErr (List Cql)
  | _, [] => .ok []
  | i, run :: rest =>
      match cqlOfRun hasReads n i run with
      | .error e => .error e
      | .ok head =>
          match cqlOfRunsGo hasReads n (i + 1) rest with
          | .error e => .error e
          | .ok tail => .ok (head ++ tail)

/-- Embedding of `_cql_of_runs` (lines 459-511). -/
def cqlOfRuns (hasReads : Bool) (n : Nat) (runs : List RunData) : Except PyErr (List Cql) :=
  cqlOfRunsGo hasReads n 0 runs

/-- The experiment-and-runs portion of `cql_of_experiment_package` (lines
73-90): the experiment statements are produced first and set
`cql_has_reads`, which `_cql_of_runs` then consults. -/
def cqlOfExperimentAndRuns (n : Nat) (e : ExpData) (runs : List RunData) :
    Except PyErr (List Cql) :=
  match cqlOfExperiment e with
  | .error er => .error er
  | .ok (expCql, hasReads) =>
      match cqlOfRuns hasReads n runs with
      | .error er => .error er
      | .ok runCql => .ok (expCql ++ runCql)

/-- Is the statement a `read`-labelled node creation? -/
def isReadCreate : Cql → Bool
  | .create lbl _ _ _ => decide (lbl = "read")
  | .rel _ _ _ _ _ => false

/-- The `read`-labelled creates of a statement list. -/
def readCreates (l : List Cql) : List Cql := l.filter isReadCreate

/-- The target variables of the `readStatistics` relationships of a
statement list. -/
def readStatTargets (l : List Cql) : List String :=
  l.filterMap (fun c =>
    match c with
    | .rel _ r dst _ _ => if r = "readStatistics" then some dst else Option.none
    | .create _ _ _ _ => Option.none)

/-- The read-statistics block with `empty_read=True` creates no node and
targets every emitted `readStatistics` edge at the shared variable `rd`. -/
theorem cqlOfReadStatistics_true_ok (runVar : String) :
    ∀ (reads : List (List (String × String))) (l : List Cql),
      cqlOfReadStatistics runVar true reads = .ok l →
      readCreates l = [] ∧ ∀ d ∈ readStatTargets l, d = "rd" := by
  intro reads
  induction reads with
  | nil =>
      intro l hl
      simp only [cqlOfReadStatistics] at hl
      cases hl
      exact ⟨rfl, by intro d hd; cases hd⟩
  | cons read rest ih =>
      intro l hl
      simp only [cqlOfReadStatistics] at hl
      cases hidx : read.lookup "index" with
      | none => rw [hidx] at hl; cases hl
      | some j =>
          rw [hidx] at hl
          cases hrec : cqlOfReadStatistics runVar true rest with
          | error e => rw [hrec] at hl; cases hl
          | ok tail =>
              rw [hrec] at hl
              simp only [if_pos rfl] at hl
              cases hl
              obtain ⟨ih1, ih2⟩ := ih tail hrec
              refine ⟨?_, ?_⟩
              · simpa [readCreates, List.filter_cons, isReadCreate] using ih1
              · intro d hd
                simp [readStatTargets] at hd
                rcases hd with rfl | hd
                · rfl
                · exact ih2 d (by simpa [readStatTargets] using hd)

/-- A create/relate pair block (pool members, SRA files, cloud files) with
a non-`read` label and a non-`readStatistics` relation contributes no read
create and no read-statistics target. -/
theorem pairSeg_ok (lbl rname v : String) (mkv : Nat → String) (mflag : Bool)
    (lst : List (List (String × String)))
    (hlbl : lbl ≠ "read") (hrel : rname ≠ "readStatistics") :
    readCreates ((lst.enum.map (fun fj =>
        [Cql.create lbl fj.2 (mkv fj.1) mflag,
         Cql.rel v rname (mkv fj.1) false []])).flatten) = [] ∧
    readStatTargets ((lst.enum.map (fun fj =>
        [Cql.create lbl fj.2 (mkv fj.1) mflag,
         Cql.rel v rname (mkv fj.1) false []])).flatten) = [] := by
  constructor
  · rw [readCreates, List.filter_eq_nil_iff]
    intro c hc
    rcases List.mem_flatten.mp hc with ⟨sub, hsub, hcsub⟩
    rcases List.mem_map.mp hsub with ⟨fj, _, rfl⟩
    rcases List.mem_cons.mp hcsub with rfl | hcsub
    · simp [isReadCreate, hlbl]
    · rcases List.mem_cons.mp hcsub with rfl | hcsub
      · simp [isReadCreate]
      · cases hcsub
  · rw [readStatTargets, List.filterMap_eq_nil_iff]
    intro c hc
    rcases List.mem_flatten.mp hc with ⟨sub, hsub, hcsub⟩
    rcases List.mem_map.mp hsub with ⟨fj, _, rfl⟩
    rcases List.mem_cons.mp hcsub with rfl | hcsub
    · rfl
    · rcases List.mem_cons.mp hcsub with rfl | hcsub
      · simp [hrel]
      · cases hcsub

/-- With `cql_has_reads` false, the per-run read block creates the shared
placeholder only for run 0 (with only the `exp_pkg` property, bound to
`rd`), and every `readStatistics` edge it emits targets `rd`. -/
theorem cqlOfRunReads_false_ok (n i : Nat) (runVar : String)
    (reads : List (List (String × String))) (l : List Cql)
    (h : cqlOfRunReads false n i runVar reads = .ok l) :
    (∀ c ∈ readCreates l, c = Cql.create "read" [("exp_pkg", natS n)] "rd" false) ∧
    (readCreates l).length ≤ (if i = 0 then 1 else 0) ∧
    (∀ d ∈ readStatTargets l, d = "rd") := by
  rw [cqlOfRunReads] at h
  by_cases hre : reads.isEmpty
  · rw [hre] at h
    simp only [Bool.not_true, Bool.false_eq_true, if_false] at h
    cases h
    refine ⟨?_, ?_, ?_⟩
    · intro c hc; cases hc
    · simp [readCreates]
    · intro d hd; cases hd
  · rw [eq_false_of_ne_true (fun hx => hre hx)] at h
    simp only [Bool.not_false, if_pos rfl] at h
    cases hst : cqlOfReadStatistics runVar true reads with
    | error e => rw [hst] at h; cases h
    | ok stats =>
        rw [hst] at h
        cases h
        obtain ⟨hs1, hs2⟩ := cqlOfReadStatistics_true_ok runVar reads stats hst
        have hrc : readCreates ((if i < 1 then
              [Cql.create "read" [("exp_pkg", natS n)] "rd" false] else []) ++ stats)
            = (if i < 1 then
              [Cql.create "read" [("exp_pkg", natS n)] "rd" false] else []) := by
          rw [readCreates, List.filter_append]
          rw [readCreates] at hs1
          rw [hs1, List.append_nil]
          by_cases hi : i < 1
          · rw [if_pos hi]
            simp [isReadCreate]
          · rw [if_neg hi]
            rfl
        refine ⟨?_, ?_, ?_⟩
        · intro c hc
          rw [hrc] at hc
          by_cases hi : i < 1
          · rw [if_pos hi] at hc
            rcases List.mem_cons.mp hc with rfl | hc
            · rfl
            · cases hc
          · rw [if_neg hi] at hc; cases hc
        · rw [hrc]
          by_cases hi : i < 1
          · rw [if_pos hi, if_pos (by omega : i = 0)]
            simp
          · rw [if_neg hi, if_neg (by omega : ¬ i = 0)]
            simp
        · intro d hd
          rw [readStatTargets, List.filterMap_append] at hd
          rcases List.mem_append.mp hd with hd | hd
          · exfalso
            by_cases hi : i < 1
            · rw [if_pos hi] at hd
              simp at hd
            · rw [if_neg hi] at hd
              cases hd
          · exact hs2 d hd

/-- A conditional create/relate pair (run attributes, bases) with a
non-`read` label and non-`readStatistics` relation contributes nothing to
the read bookkeeping. -/
theorem condPair_ok (lbl rname v w : String) (mflag : Bool) (cond : Bool)
    (attrs : List (String × String))
    (hlbl : lbl ≠ "read") (hrel : rname ≠ "readStatistics") :
    readCreates (if cond then
        [Cql.create lbl attrs w mflag, Cql.rel v rname w false []] else []) = [] ∧
    readStatTargets (if cond then
        [Cql.create lbl attrs w mflag, Cql.rel v rname w false []] else []) = [] := by
  cases cond
  · exact ⟨rfl, rfl⟩
  · constructor
    · simp [readCreates, isReadCreate, hlbl]
    · simp [readStatTargets, hrel]

/-- A single non-`read` create carries no read create. -/
theorem filter_isReadCreate_other (lbl : String) (h : lbl ≠ "read")
    (a : List (String × String)) (v : String) (m : Bool) :
    List.filter isReadCreate [Cql.create lbl a v m] = [] := by
  simp [isReadCreate, h]

/-- A single relationship carries no read create. -/
theorem filter_isReadCreate_rel (s r d : String) (m : Bool)
    (a : List (String × String)) :
    List.filter isReadCreate [Cql.rel s r d m a] = [] := by
  simp [isReadCreate]

/-- The statement block of one run, with `cql_has_reads` false: its read
creates are only the shared placeholder of run 0, and its
`readStatistics` edges all target `rd`. -/
theorem cqlOfRun_false_ok (n i : Nat) (run : RunData) (l : List Cql)
    (h : cqlOfRun false n i run = .ok l) :
    (∀ c ∈ readCreates l, c = Cql.create "read" [("exp_pkg", natS n)] "rd" false) ∧
    (readCreates l).length ≤ (if i = 0 then 1 else 0) ∧
    (∀ d ∈ readStatTargets l, d = "rd") := by
  rw [cqlOfRun] at h
  cases hrr : cqlOfRunReads false n i ("run" ++ natS i)
      (match run.stats? with
       | some (a, rds) =>
           if !(a.isEmpty && rds.isEmpty) then (mergeDict (mergeDict run.attrs
             [("exp_pkg", natS n)]) a, rds)
           else (mergeDict run.attrs [("exp_pkg", natS n)], [])
       | Option.none => (mergeDict run.attrs [("exp_pkg", natS n)], [])).2 with
  | error e => rw [hrr] at h; cases h
  | ok readsCql =>
      rw [hrr] at h
      cases h
      obtain ⟨h1, h2, h3⟩ := cqlOfRunReads_false_ok n i _ _ readsCql hrr
      obtain ⟨hpc, hpt⟩ := pairSeg_ok "member" "hasPoolData" ("run" ++ natS i)
        (fun j => "mem" ++ natS i ++ natS j) true run.pool (by decide) (by decide)
      obtain ⟨hac, hat⟩ := condPair_ok "run_attrib" "hasRunAttribute" ("run" ++ natS i)
        ("run_att" ++ natS i) false
        (!(mergeDict run.runAttribs [("exp_pkg", natS n)]).isEmpty)
        (mergeDict run.runAttribs [("exp_pkg", natS n)]) (by decide) (by decide)
      obtain ⟨hsc, hst⟩ := pairSeg_ok "sra_file" "hasSRAFile" ("run" ++ natS i)
        (fun j => "sra_f" ++ natS i ++ natS j) false run.sraFiles (by decide) (by decide)
      obtain ⟨hcc, hct⟩ := pairSeg_ok "cloud_file" "hasCloudFile" ("run" ++ natS i)
        (fun j => "cloud_f" ++ natS i ++ natS j) true run.cloudFiles (by decide) (by decide)
      obtain ⟨hbc, hbt⟩ := condPair_ok "bases" "hasBases" ("run" ++ natS i)
        ("bas" ++ natS i) false (!run.bases.isEmpty) run.bases (by decide) (by decide)
      simp only [readCreates, readStatTargets, List.filter_append,
        List.filterMap_append] at *
      refine ⟨?_, ?_, ?_⟩
      · intro c hc
        simp only [List.mem_append] at hc
        rcases hc with ((((((hc | hc) | hc) | hc) | hc) | hc) | hc) | hc
        · simp [isReadCreate] at hc
        · exact h1 c hc
        · simp [isReadCreate] at hc
        · rw [hpc] at hc; cases hc
        · rw [hac] at hc; cases hc
        · rw [hsc] at hc; cases hc
        · rw [hcc] at hc; cases hc
        · rw [hbc] at hc; cases hc
      · rw [hpc, hac, hsc, hcc, hbc,
            filter_isReadCreate_other "run" (by decide) _ _ _,
            filter_isReadCreate_rel "exp" "hasRun" _ _ _]
        simp only [List.length_append, List.length_nil, List.nil_append,
          List.append_nil]
        omega
      · intro d hd
        simp only [List.mem_append] at hd
        rcases hd with ((((((hd | hd) | hd) | hd) | hd) | hd) | hd) | hd
        · simp at hd
        · exact h3 d hd
        · simp at hd
        · rw [hpt] at hd; cases hd
        · rw [hat] at hd; cases hd
        · rw [hst] at hd; cases hd
        · rw [hct] at hd; cases hd
        · rw [hbt] at hd; cases hd

/-- Over the whole `enumerate(runs)` loop with `cql_has_reads` false, at
most one shared placeholder is created — only when the loop starts at
index 0 — and all `readStatistics` edges target `rd`. -/
theorem cqlOfRunsGo_false_ok (n : Nat) :
    ∀ (runs : List RunData) (s : Nat) (l : List Cql),
      cqlOfRunsGo false n s runs = .ok l →
      (∀ c ∈ readCreates l, c = Cql.create "read" [("exp_pkg", natS n)] "rd" false) ∧
      (readCreates l).length ≤ (if s = 0 then 1 else 0) ∧
      (∀ d ∈ readStatTargets l, d = "rd") := by
  intro runs
  induction runs with
  | nil =>
      intro s l h
      rw [cqlOfRunsGo] at h
      cases h
      refine ⟨?_, ?_, ?_⟩
      · intro c hc; cases hc
      · simp [readCreates]
      · intro d hd; cases hd
  | cons run rest ih =>
      intro s l h
      rw [cqlOfRunsGo] at h
      cases hh : cqlOfRun false n s run with
      | error e => rw [hh] at h; cases h
      | ok head =>
          rw [hh] at h
          cases ht : cqlOfRunsGo false n (s + 1) rest with
          | error e => rw [ht] at h; cases h
          | ok tail =>
              rw [ht] at h
              cases h
              obtain ⟨a1, a2, a3⟩ := cqlOfRun_false_ok n s run head hh
              obtain ⟨b1, b2, b3⟩ := ih (s + 1) tail ht
              rw [if_neg (by omega : ¬ s + 1 = 0)] at b2
              refine ⟨?_, ?_, ?_⟩
              · intro c hc
                rw [readCreates, List.filter_append] at hc
                rcases List.mem_append.mp hc with hc | hc
                · exact a1 c hc
                · exact b1 c hc
              · rw [readCreates, List.filter_append, List.length_append]
                rw [readCreates] at a2 b2
                omega
              · intro d hd
                rw [readStatTargets, List.filterMap_append] at hd
                rcases List.mem_append.mp hd with hd | hd
                · exact a3 d hd
                · exact b3 d hd

/-- With no read specification in the design, `_cql_of_experiment` records
`cql_has_reads = False` and emits no `read` create and no `readStatistics`
edge. -/
theorem cqlOfExperiment_noSpecs (e : ExpData) (hspec : e.readSpecs = []) :
    ∃ expCql, cqlOfExperiment e = .ok (expCql, false) ∧
      readCreates expCql = [] ∧ readStatTargets expCql = [] := by
  rw [cqlOfExperiment, hspec]
  simp only [List.isEmpty_nil, Bool.not_true, Bool.false_eq_true, if_false]
  refine ⟨_, rfl, ?_, ?_⟩ <;>
    by_cases hspd : e.spotDescriptor.isEmpty <;>
      simp [readCreates, readStatTargets, isReadCreate, hspd]

/-- C7: for a record whose design carries no explicit read specification,
the mapper's experiment-and-runs statement batch creates at most one
`read` node; any such create is the synthetic placeholder carrying only
the `exp_pkg` property and bound to `rd`; and every `readStatistics` edge
of every run with per-read statistics targets that shared variable `rd`. -/
theorem C7_synthetic_read_shared (n : Nat) (e : ExpData) (runs : List RunData)
    (ops : List Cql) (hspec : e.readSpecs = [])
    (h : cqlOfExperimentAndRuns n e runs = .ok ops) :
    (readCreates ops).length ≤ 1 ∧
    (∀ c ∈ readCreates ops, c = Cql.create "read" [("exp_pkg", natS n)] "rd" false) ∧
    (∀ d ∈ readStatTargets ops, d = "rd") := by
  obtain ⟨expCql, hexp, hrc, hrt⟩ := cqlOfExperiment_noSpecs e hspec
  rw [cqlOfExperimentAndRuns, hexp] at h
  simp only [] at h
  cases hrun : cqlOfRuns false n runs with
  | error er => rw [hrun] at h; cases h
  | ok runCql =>
      rw [hrun] at h
      cases h
      rw [cqlOfRuns] at hrun
      obtain ⟨g1, g2, g3⟩ := cqlOfRunsGo_false_ok n runs 0 runCql hrun
      rw [if_pos rfl] at g2
      refine ⟨?_, ?_, ?_⟩
      · rw [readCreates, List.filter_append]
        rw [readCreates] at hrc g2
        rw [hrc, List.nil_append]
        exact g2
      · intro c hc
        rw [readCreates, List.filter_append] at hc
        rw [readCreates] at hrc
        rw [hrc, List.nil_append] at hc
        exact g1 c hc
      · intro d hd
        rw [readStatTargets, List.filterMap_append] at hd
        rw [readStatTargets] at hrt
        rw [hrt, List.nil_append] at hd
        exact g3 d hd

/-- The concrete record used by C7's witness: no read specification in
the design, two runs both carrying per-read statistics. -/
def c7exp : ExpData :=
  { design := [("exp_pkg", "7"), ("description", "d")]
    library := [("exp_pkg", "7"), ("LIBRARY_STRATEGY", "WGS")]
    spotDescriptor := []
    readSpecs := []
    instrument := [("type", "ILLUMINA"), ("model", "NextSeq 500")]
    experiment := [("accession", "SRX1"), ("exp_pkg", "7")] }

/-- The two runs of C7's witness record. -/
def c7runs : List RunData :=
  [{ attrs := [("accession", "SRR1")]
     stats? := some ([("nspots", "100")], [[("index", "0"), ("count", "100")]])
     pool := [], runAttribs := [], sraFiles := [], cloudFiles := [], bases := [] },
   { attrs := [("accession", "SRR2")]
     stats? := some ([("nspots", "50")], [[("index", "0"), ("count", "50")]])
     pool := [], runAttribs := [], sraFiles := [], cloudFiles := [], bases := [] }]

/-- The statement batch of the witness record. -/
def c7ops : List Cql := (cqlOfExperimentAndRuns 7 c7exp c7runs).toOption.getD []

/-- Witness for C7 at the concrete record: the hypotheses hold by
computation and the conclusions follow by the theorem. -/
theorem C7_synthetic_read_shared_witness :
    c7exp.readSpecs = [] ∧
    cqlOfExperimentAndRuns 7 c7exp c7runs = .ok c7ops ∧
    ((readCreates c7ops).length ≤ 1 ∧
     (∀ c ∈ readCreates c7ops, c = Cql.create "read" [("exp_pkg", natS 7)] "rd" false) ∧
     (∀ d ∈ readStatTargets c7ops, d = "rd")) :=
  ⟨rfl, rfl, C7_synthetic_read_shared 7 c7exp c7runs c7ops rfl rfl⟩
